import Mathlib

set_option maxRecDepth 100000

/-!
Verification of the `umbro-cdk` secret-derivation and OIDC identity-mapping
core: a shallow embedding of `deriveNextAuthSecret`, `getSeedForStage`,
`determineStageFromTargets`, `createEnvironmentVariables` (both the
`src/scripts/update-vercel-env.ts` version and the variant updater), and the
stage-to-environment / subject-claim / trust-condition construction of
`src/lib/stacks/vercel-open-id-connect.ts`, together with proofs about them.
-/

namespace UmbroCDK

namespace Crypto

/-- Truncate to a 32-bit word. -/
def w32 (n : Nat) : Nat := n % 4294967296

/-- Rotate the 32-bit word x right by n bit positions. -/
def rotr (n x : Nat) : Nat := w32 ((x >>> n) ||| (x <<< (32 - n)))

def bigSigma0 (x : Nat) : Nat := (rotr 2 x) ^^^ (rotr 13 x) ^^^ (rotr 22 x)

def bigSigma1 (x : Nat) : Nat := (rotr 6 x) ^^^ (rotr 11 x) ^^^ (rotr 25 x)

def smallSigma0 (x : Nat) : Nat := (rotr 7 x) ^^^ (rotr 18 x) ^^^ (x >>> 3)

def smallSigma1 (x : Nat) : Nat := (rotr 17 x) ^^^ (rotr 19 x) ^^^ (x >>> 10)

def ch (x y z : Nat) : Nat := (x &&& y) ^^^ ((x ^^^ 4294967295) &&& z)

def maj (x y z : Nat) : Nat := (x &&& y) ^^^ (x &&& z) ^^^ (y &&& z)

/-- The 64 SHA-256 round constants of FIPS 180-4 section 4.2.2, written in
decimal. -/
def K : List Nat :=
  [1116352408, 1899447441, 3049323471, 3921009573, 961987163, 1508970993,
   2453635748, 2870763221, 3624381080, 310598401, 607225278, 1426881987,
   1925078388, 2162078206, 2614888103, 3248222580, 3835390401, 4022224774,
   264347078, 604807628, 770255983, 1249150122, 1555081692, 1996064986,
   2554220882, 2821834349, 2952996808, 3210313671, 3336571891, 3584528711,
   113926993, 338241895, 666307205, 773529912, 1294757372, 1396182291,
   1695183700, 1986661051, 2177026350, 2456956037, 2730485921, 2820302411,
   3259730800, 3345764771, 3516065817, 3600352804, 4094571909, 275423344,
   430227734, 506948616, 659060556, 883997877, 958139571, 1322822218,
   1537002063, 1747873779, 1955562222, 2024104815, 2227730452, 2361852424,
   2428436474, 2756734187, 3204031479, 3329325298]

/-- Working registers / hash state. -/
structure Regs where
  a : Nat
  b : Nat
  c : Nat
  d : Nat
  e : Nat
  f : Nat
  g : Nat
  h : Nat
deriving Repr, DecidableEq

/-- Initial hash value of FIPS 180-4 section 5.3.3, written in decimal. -/
def initRegs : Regs :=
  ⟨1779033703, 3144134277, 1013904242, 2773480762, 1359893119, 2600822924, 528734635, 1541459225⟩

/-- Big-endian byte expansion, most significant byte first. -/
def beBytes : Nat → Nat → List Nat
  | 0, _ => []
  | n + 1, x => beBytes n (x >>> 8) ++ [x % 256]

/-- Group a byte list into big-endian 32-bit words. -/
def toWords : List Nat → List Nat
  | b0 :: b1 :: b2 :: b3 :: rest => (b0 <<< 24 ||| b1 <<< 16 ||| b2 <<< 8 ||| b3) :: toWords rest
  | _ => []

/-- Split off `n` successive chunks of 64 elements. -/
def chunksGo : Nat → List Nat → List (List Nat)
  | 0, _ => []
  | n + 1, l => l.take 64 :: chunksGo n (l.drop 64)

/-- Split a list into chunks of 64 elements. -/
def chunks64 (l : List Nat) : List (List Nat) := chunksGo ((l.length + 63) / 64) l

/-- SHA-256 message padding: append 0x80, zeros, and the 64-bit bit length. -/
def padMessage (msg : List Nat) : List Nat :=
  let len := msg.length
  msg ++ [0x80] ++ List.replicate ((55 + 64 - len % 64) % 64) 0 ++ beBytes 8 (8 * len)

/-- Extend the message schedule; `ws` is kept reversed (most recent first). -/
def extendW : Nat → List Nat → List Nat
  | 0, ws => ws
  | n + 1, ws =>
    extendW n
      (w32 (smallSigma1 (ws.getD 1 0) + ws.getD 6 0 + smallSigma0 (ws.getD 14 0) + ws.getD 15 0)
        :: ws)

/-- The 64-word message schedule of a 64-byte block. -/
def schedule (block : List Nat) : List Nat :=
  (extendW 48 (toWords block).reverse).reverse

/-- One SHA-256 round. -/
def round (r : Regs) (kw : Nat × Nat) : Regs :=
  let t1 := w32 (r.h + bigSigma1 r.e + ch r.e r.f r.g + kw.1 + kw.2)
  let t2 := w32 (bigSigma0 r.a + maj r.a r.b r.c)
  ⟨w32 (t1 + t2), r.a, r.b, r.c, w32 (r.d + t1), r.e, r.f, r.g⟩

/-- Compress one 64-byte block into the running hash state. -/
def compress (r : Regs) (block : List Nat) : Regs :=
  let f := (K.zip (schedule block)).foldl round r
  ⟨w32 (r.a + f.a), w32 (r.b + f.b), w32 (r.c + f.c), w32 (r.d + f.d),
   w32 (r.e + f.e), w32 (r.f + f.f), w32 (r.g + f.g), w32 (r.h + f.h)⟩

/-- Final hash state of a byte-list message. -/
def sha256Regs (msg : List Nat) : Regs :=
  (chunks64 (padMessage msg)).foldl compress initRegs

/-- SHA-256 digest of a byte list, as a list of 32 bytes. -/
def sha256 (msg : List Nat) : List Nat :=
  let r := sha256Regs msg
  beBytes 4 r.a ++ beBytes 4 r.b ++ beBytes 4 r.c ++ beBytes 4 r.d ++
  beBytes 4 r.e ++ beBytes 4 r.f ++ beBytes 4 r.g ++ beBytes 4 r.h

/-- HMAC-SHA256 (RFC 2104): block size 64 bytes. -/
def hmacSha256 (key msg : List Nat) : List Nat :=
  let k0 := if 64 < key.length then sha256 key else key
  let kp := k0 ++ List.replicate (64 - k0.length) 0
  let ipad := kp.map (fun b => b ^^^ 0x36)
  let opad := kp.map (fun b => b ^^^ 0x5c)
  sha256 (opad ++ sha256 (ipad ++ msg))

/-- Lowercase hex digit for a value below 16. -/
def hexDigit (n : Nat) : Char :=
  if n < 10 then Char.ofNat (48 + n) else Char.ofNat (87 + n)

/-- Two lowercase hex characters of one byte. -/
def byteHex (b : Nat) : List Char := [hexDigit (b / 16 % 16), hexDigit (b % 16)]

/-- Lowercase hexadecimal encoding of a byte list. -/
def hexLower (bytes : List Nat) : String := String.mk (bytes.map byteHex).flatten

/-- UTF-8 encoding of one character. -/
def utf8Bytes (c : Char) : List Nat :=
  let n := c.toNat
  if n < 128 then [n]
  else if n < 2048 then [192 + n / 64, 128 + n % 64]
  else if n < 65536 then [224 + n / 4096, 128 + n / 64 % 64, 128 + n % 64]
  else [240 + n / 262144, 128 + n / 4096 % 64, 128 + n / 64 % 64, 128 + n % 64]

/-- UTF-8 byte sequence of a string. -/
def strBytes (s : String) : List Nat := (s.data.map utf8Bytes).flatten

end Crypto

/-- The secret derivation of `deriveNextAuthSecret` in
`src/scripts/update-vercel-env.ts` (and identically in the variant updater):
HMAC-SHA256 keyed by the seed over the namespaced message
`"umbro|nextauth|" + stage`, hex encoded. -/
def deriveNextAuthSecret (seed stage : String) : String :=
  Crypto.hexLower
    (Crypto.hmacSha256 (Crypto.strBytes seed) (Crypto.strBytes ("umbro|nextauth|" ++ stage)))

/-- A process environment: variable name to optional value. -/
def Env : Type := String → Option String

/-- One entry pushed to the Vercel API (`EnvironmentVariable` interface). -/
structure EnvironmentVariable where
  key : String
  value : String
  target : String
  type : String
deriving DecidableEq, Repr

/-- One `if (outputs.X) envVars.push({...})` step: JS truthiness on an
optional string (absent and empty string are both falsy). -/
def optVar (o : Option String) (key targetStr ty : String) : List EnvironmentVariable :=
  match o with
  | some v => if v.isEmpty then [] else [⟨key, v, targetStr, ty⟩]
  | none => []

namespace UpdateVercelEnv

/-- The `CloudFormationOutputs` interface of `src/scripts/update-vercel-env.ts`. -/
structure CloudFormationOutputs where
  AccountId : Option String := none
  Region : Option String := none
  VercelRoleArn : Option String := none
  UsersTableName : Option String := none
  ServiceTokensTableName : Option String := none
deriving DecidableEq, Repr

/-- Embedding of `determineStageFromTargets`: `'Production'` when the target list contains
`'production'`, otherwise `'Alpha'`. -/
def determineStageFromTargets (targets : List String) : String :=
  if targets.contains "production" then "Production" else "Alpha"

/-- The seed variable looked up for a stage (line 230 of the script). -/
def seedEnvVarName (stage : String) : String :=
  if stage = "Production" then "NEXTAUTH_SEED_PRODUCTION" else "NEXTAUTH_SEED_ALPHA"

/-- The five conditional CloudFormation-output pushes of
`createEnvironmentVariables` in `src/scripts/update-vercel-env.ts`. -/
def baseVars (outputs : CloudFormationOutputs) (targetStr : String) :
    List EnvironmentVariable :=
  optVar outputs.AccountId "AWS_ACCOUNT_ID" targetStr "plain"
  ++ optVar outputs.Region "AWS_REGION" targetStr "plain"
  ++ optVar outputs.VercelRoleArn "AWS_ROLE_ARN" targetStr "plain"
  ++ optVar outputs.UsersTableName "USERS_TABLE_NAME" targetStr "plain"
  ++ optVar outputs.ServiceTokensTableName "SERVICE_TOKENS_TABLE_NAME" targetStr "plain"

/-- The NextAuth block of `createEnvironmentVariables` (lines 229-249): when
the seed variable is unset or empty the script warns and pushes nothing,
otherwise it pushes the derived secret under both aliases. -/
def nextAuthVars (env : Env) (stage targetStr : String) : List EnvironmentVariable :=
  match env (seedEnvVarName stage) with
  | none => []
  | some seed =>
    if seed.isEmpty then []
    else
      let nextAuthSecret := deriveNextAuthSecret seed stage
      [⟨"NEXTAUTH_SECRET", nextAuthSecret, targetStr, "encrypted"⟩,
       ⟨"AUTH_SECRET", nextAuthSecret, targetStr, "encrypted"⟩]

/-- Embedding of `createEnvironmentVariables` in `src/scripts/update-vercel-env.ts`: the
sequence of conditional pushes, then the NextAuth block. -/
def createEnvironmentVariables (outputs : CloudFormationOutputs) (env : Env)
    (targets : List String) : List EnvironmentVariable :=
  let stage := determineStageFromTargets targets
  let targetStr := String.intercalate "," targets
  baseVars outputs targetStr ++ nextAuthVars env stage targetStr

end UpdateVercelEnv

namespace Variant

/-- The `CloudFormationOutputs` interface of the variant updater. -/
structure CloudFormationOutputs where
  AccountId : Option String := none
  Region : Option String := none
  VercelRoleArn : Option String := none
  UsersTableName : Option String := none
  RateLimitTableName : Option String := none
  ServiceTokensTableName : Option String := none
  ApplicationsTableName : Option String := none
  EnvironmentsTableName : Option String := none
  TeamsTableName : Option String := none
  TeamMembershipsTableName : Option String := none
  TeamLinksTableName : Option String := none
  RequestsTableName : Option String := none
  RequestCommentsTableName : Option String := none
  AccessGrantsTableName : Option String := none
  VisitorsTableName : Option String := none
  UserPermissionsTableName : Option String := none
  AuditLogsTableName : Option String := none
  PlansTableName : Option String := none
  ProfileBucketName : Option String := none
  AssetsBucketName : Option String := none
  EmailTopicArn : Option String := none
  EmailLogGroupName : Option String := none
  EmailRoleArn : Option String := none
deriving DecidableEq, Repr

/-- The variant's `determineStageFromTargets` (same logic as the script). -/
def determineStageFromTargets (targets : List String) : String :=
  if targets.contains "production" then "Production" else "Alpha"

def prodFallbackSeed : String := "umbro-prod-seed-2024-deterministic-fallback"

def alphaFallbackSeed : String := "umbro-alpha-seed-2024-deterministic-fallback"

/-- The variant's seed-variable name selection (same expression as the script). -/
def seedEnvVarName (stage : String) : String :=
  if stage = "Production" then "NEXTAUTH_SEED_PRODUCTION" else "NEXTAUTH_SEED_ALPHA"

/-- The object literal `fallbackSeeds` of `getSeedForStage`, as an
association list; `fallbackSeeds[stage] || fallbackSeeds.Alpha` is the lookup
with JS `||` defaulting. -/
def fallbackSeeds : List (String × String) :=
  [("Production", prodFallbackSeed), ("Alpha", alphaFallbackSeed)]

/-- Embedding of `getSeedForStage` in the variant updater: environment seed when truthy,
otherwise the per-stage fallback constant (Alpha constant by default). -/
def getSeedForStage (env : Env) (stage : String) : String :=
  match env (seedEnvVarName stage) with
  | some envSeed =>
    if envSeed.isEmpty then
      match fallbackSeeds.lookup stage with
      | some fb => if fb.isEmpty then alphaFallbackSeed else fb
      | none => alphaFallbackSeed
    else envSeed
  | none =>
    match fallbackSeeds.lookup stage with
    | some fb => if fb.isEmpty then alphaFallbackSeed else fb
    | none => alphaFallbackSeed

/-- Embedding of `createEnvironmentVariables` in the variant updater: the conditional
pushes, then the NextAuth block, which always emits both secret aliases from
`getSeedForStage`. -/
def createEnvironmentVariables (outputs : CloudFormationOutputs) (env : Env)
    (targets : List String) : List EnvironmentVariable :=
  let stage := determineStageFromTargets targets
  let targetStr := String.intercalate "," targets
  let base :=
    optVar outputs.AccountId "AWS_ACCOUNT_ID" targetStr "plain"
    ++ optVar outputs.Region "AWS_REGION" targetStr "plain"
    ++ optVar outputs.VercelRoleArn "AWS_ROLE_ARN" targetStr "plain"
    ++ optVar outputs.UsersTableName "TABLE_NAME_USERS" targetStr "encrypted"
    ++ optVar outputs.ServiceTokensTableName "TABLE_NAME_SERVICE_TOKENS" targetStr "encrypted"
    ++ optVar outputs.RateLimitTableName "TABLE_NAME_RATE_LIMIT" targetStr "plain"
    ++ optVar outputs.ApplicationsTableName "TABLE_NAME_APPLICATIONS" targetStr "plain"
    ++ optVar outputs.EnvironmentsTableName "TABLE_NAME_ENVIRONMENTS" targetStr "plain"
    ++ optVar outputs.TeamsTableName "TABLE_NAME_TEAMS" targetStr "plain"
    ++ optVar outputs.TeamMembershipsTableName "TABLE_NAME_TEAM_MEMBERSHIPS" targetStr "plain"
    ++ optVar outputs.TeamLinksTableName "TABLE_NAME_TEAM_LINKS" targetStr "plain"
    ++ optVar outputs.RequestsTableName "TABLE_NAME_REQUESTS" targetStr "plain"
    ++ optVar outputs.RequestCommentsTableName "TABLE_NAME_REQUEST_COMMENTS" targetStr "plain"
    ++ optVar outputs.AccessGrantsTableName "TABLE_NAME_ACCESS_GRANTS" targetStr "encrypted"
    ++ optVar outputs.VisitorsTableName "TABLE_NAME_VISITORS" targetStr "plain"
    ++ optVar outputs.UserPermissionsTableName "TABLE_NAME_USER_PERMISSIONS" targetStr "encrypted"
    ++ optVar outputs.AuditLogsTableName "TABLE_NAME_AUDIT_LOGS" targetStr "encrypted"
    ++ optVar outputs.PlansTableName "TABLE_NAME_PLANS" targetStr "encrypted"
    ++ optVar outputs.ProfileBucketName "BUCKET_NAME_PROFILE" targetStr "encrypted"
    ++ optVar outputs.AssetsBucketName "BUCKET_NAME_ASSETS" targetStr "encrypted"
    ++ optVar outputs.EmailTopicArn "EMAIL_SNS_TOPIC_ARN" targetStr "encrypted"
    ++ optVar outputs.EmailLogGroupName "EMAIL_CLOUDWATCH_LOG_GROUP" targetStr "encrypted"
    ++ optVar outputs.EmailRoleArn "EMAIL_IAM_ROLE_ARN" targetStr "encrypted"
    ++ optVar (env "EMAIL_NOTIFICATION_EMAIL") "EMAIL_NOTIFICATION_EMAIL" targetStr "encrypted"
  let seed := getSeedForStage env stage
  let nextAuthSecret := deriveNextAuthSecret seed stage
  base ++
    [⟨"NEXTAUTH_SECRET", nextAuthSecret, targetStr, "encrypted"⟩,
     ⟨"AUTH_SECRET", nextAuthSecret, targetStr, "encrypted"⟩]

end Variant

namespace VercelOIDC

/-- Modelled from the spec: the `Stage` enumeration imported from the external
`@krauters/structures` package (not part of this repository), with the labels
the spec lists: Development, Alpha, Beta, Production, Root, Pipeline, Gamma. -/
inductive Stage where
  | Development
  | Alpha
  | Beta
  | Gamma
  | Pipeline
  | Production
  | Root
deriving DecidableEq, Repr

/-- Modelled from the spec: the string value carried by each `Stage` member
(the stage label itself). -/
def Stage.toStr : Stage → String
  | .Development => "Development"
  | .Alpha => "Alpha"
  | .Beta => "Beta"
  | .Gamma => "Gamma"
  | .Pipeline => "Pipeline"
  | .Production => "Production"
  | .Root => "Root"

/-- Lowercasing as in `stage.toLowerCase()`, character by character (ASCII case mapping). -/
def toLowerStr (s : String) : String := String.mk (s.data.map Char.toLower)

/-- Embedding of `mapStageToVercelEnvironment` in `src/lib/stacks/vercel-open-id-connect.ts`,
at the runtime (string) level: the `switch` compares the stage value against
the `Stage.Alpha` / `Stage.Production` labels and otherwise falls back to the
lowercased stage value. -/
def mapStageToVercelEnvironment (stage : String) : List String :=
  if stage = "Alpha" then ["development", "preview"]
  else if stage = "Production" then ["production"]
  else [toLowerStr stage]

/-- Embedding of `createSubjectClaim`: colon join of the owner/project/environment parts. -/
def createSubjectClaim (teamSlug projectName environment : String) : String :=
  String.intercalate ":" ["owner", teamSlug, "project", projectName, "environment", environment]

/-- Capitalization as in `stage.charAt(0).toUpperCase() + stage.slice(1)` (line 67). -/
def capitalizeStage (s : String) : String :=
  match s.data with
  | [] => ""
  | c :: cs => String.mk (c.toUpper :: cs)

/-- A trust-condition value: either a scalar string or a list of strings
(the two shapes line 84 can store under the subject key). -/
inductive ConditionValue where
  | scalar (value : String)
  | values (list : List String)
deriving DecidableEq, Repr

/-- Line 84: a single-element claim set collapses to the scalar
`subjectClaims[0]`, anything else is stored as the list itself. -/
def collapseSubjectValue (subjectClaims : List String) : ConditionValue :=
  if subjectClaims.length = 1 then ConditionValue.scalar (subjectClaims.getD 0 "")
  else ConditionValue.values subjectClaims

/-- Issuer mode of the stack props (defaults to `team` at the call site). -/
inductive IssuerMode where
  | team
  | global
deriving DecidableEq, Repr

/-- Embedding of `vercelOidcUrl.replace('https://', '')` for URLs carrying the prefix. -/
def stripHttps (s : String) : String :=
  if s.startsWith "https://" then s.drop 8 else s

/-- The observable values computed by the `VercelOpenIDConnectStack`
constructor (lines 55-93). -/
structure StackModel where
  vercelOidcUrl : String
  audienceValue : String
  roleName : String
  vercelEnvironments : List String
  subjectClaims : List String
  conditions : List (String × ConditionValue)
  roleDescription : String
deriving DecidableEq, Repr

/-- The `VercelOpenIDConnectStack` constructor body, at the runtime (string)
level for the stage value. -/
def buildStack (teamSlug projectName stage : String) (issuerMode : IssuerMode) : StackModel :=
  let isTeamMode := issuerMode = IssuerMode.team
  let vercelOidcUrl :=
    if isTeamMode then "https://oidc.vercel.com/" ++ teamSlug else "https://oidc.vercel.com"
  let audienceValue := "https://vercel.com/" ++ teamSlug
  let stageCapitalized := capitalizeStage stage
  let roleName := "VercelApp" ++ stageCapitalized
  let vercelEnvironments := mapStageToVercelEnvironment stage
  let oidcUrlWithoutProtocol := stripHttps vercelOidcUrl
  let subjectClaims :=
    vercelEnvironments.map (fun env => createSubjectClaim teamSlug projectName env)
  { vercelOidcUrl := vercelOidcUrl
    audienceValue := audienceValue
    roleName := roleName
    vercelEnvironments := vercelEnvironments
    subjectClaims := subjectClaims
    conditions :=
      [(oidcUrlWithoutProtocol ++ ":aud", ConditionValue.scalar audienceValue),
       (oidcUrlWithoutProtocol ++ ":sub", collapseSubjectValue subjectClaims)]
    roleDescription :=
      "Vercel application role for " ++ stage ++ " environment (allows: "
        ++ String.intercalate ", " vercelEnvironments ++ ")" }

end VercelOIDC

end UmbroCDK

namespace UmbroCDK

/-- A lowercase hexadecimal character: one of `0`-`9` or `a`-`f` (the
character class of `^[0-9a-f]{64}$`). -/
def isLowerHexChar (c : Char) : Prop :=
  ('0' ≤ c ∧ c ≤ '9') ∨ ('a' ≤ c ∧ c ≤ 'f')

instance (c : Char) : Decidable (isLowerHexChar c) :=
  inferInstanceAs (Decidable (_ ∨ _))

theorem beBytes_length (n x : Nat) : (Crypto.beBytes n x).length = n := by
  induction n generalizing x with
  | zero => rfl
  | succ n ih => simp [Crypto.beBytes, ih]

theorem sha256_length (msg : List Nat) : (Crypto.sha256 msg).length = 32 := by
  simp [Crypto.sha256, beBytes_length]

theorem hmacSha256_length (key msg : List Nat) :
    (Crypto.hmacSha256 key msg).length = 32 :=
  sha256_length _

theorem hexLower_length (bytes : List Nat) :
    (Crypto.hexLower bytes).length = 2 * bytes.length := by
  show ((bytes.map Crypto.byteHex).flatten).length = 2 * bytes.length
  induction bytes with
  | nil => rfl
  | cons b bs ih =>
    simp only [List.map_cons, List.flatten_cons, List.length_append, ih, List.length_cons]
    simp [Crypto.byteHex]
    omega

theorem hexDigit_isLowerHex : ∀ n < 16, isLowerHexChar (Crypto.hexDigit n) := by decide

theorem mem_hexLower_isLowerHex (bytes : List Nat) :
    ∀ c ∈ (Crypto.hexLower bytes).data, isLowerHexChar c := by
  intro c hc
  rw [show (Crypto.hexLower bytes).data = (bytes.map Crypto.byteHex).flatten from rfl] at hc
  simp only [List.mem_flatten, List.mem_map] at hc
  obtain ⟨l, ⟨b, _, rfl⟩, hcl⟩ := hc
  simp only [Crypto.byteHex, List.mem_cons, List.not_mem_nil, or_false] at hcl
  rcases hcl with rfl | rfl
  · exact hexDigit_isLowerHex _ (Nat.mod_lt _ (by omega))
  · exact hexDigit_isLowerHex _ (Nat.mod_lt _ (by omega))

/-- C1: for every seed string and stage label, `deriveNextAuthSecret` returns
exactly the lowercase hexadecimal encoding of HMAC-SHA256 with key = seed and
message = `"umbro|nextauth|"` concatenated with the stage label, and the
output is 64 characters drawn from `[0-9a-f]`. -/
theorem derive_hmac_hex_format (seed stage : String) :
    deriveNextAuthSecret seed stage
      = Crypto.hexLower (Crypto.hmacSha256 (Crypto.strBytes seed)
          (Crypto.strBytes ("umbro|nextauth|" ++ stage)))
    ∧ (deriveNextAuthSecret seed stage).length = 64
    ∧ ∀ c ∈ (deriveNextAuthSecret seed stage).data, isLowerHexChar c := by
  refine ⟨rfl, ?_, mem_hexLower_isLowerHex _⟩
  show (Crypto.hexLower (Crypto.hmacSha256 _ _)).length = 64
  rw [hexLower_length, hmacSha256_length]

theorem derive_hmac_hex_format_witness :
    deriveNextAuthSecret "umbro-alpha-seed-2024-deterministic-fallback" "Alpha"
      = Crypto.hexLower (Crypto.hmacSha256
          (Crypto.strBytes "umbro-alpha-seed-2024-deterministic-fallback")
          (Crypto.strBytes ("umbro|nextauth|" ++ "Alpha")))
    ∧ (deriveNextAuthSecret "umbro-alpha-seed-2024-deterministic-fallback" "Alpha").length = 64
    ∧ ∀ c ∈ (deriveNextAuthSecret "umbro-alpha-seed-2024-deterministic-fallback" "Alpha").data,
        isLowerHexChar c :=
  derive_hmac_hex_format "umbro-alpha-seed-2024-deterministic-fallback" "Alpha"

end UmbroCDK

namespace UmbroCDK

/-- Known-answer pin of the SHA-256 embedding (FIPS 180-4 test vector). -/
theorem sha256_known_answer :
    Crypto.hexLower (Crypto.sha256 (Crypto.strBytes "abc"))
      = "ba7816bf8f01cfea414140de5dae2223b00361a396177a9cb410ff61f20015ad"
    ∧ Crypto.hexLower (Crypto.sha256 [])
      = "e3b0c44298fc1c149afbf4c8996fb92427ae41e4649b934ca495991b7852b855" := by
  constructor <;> decide

/-- Known-answer pin of the HMAC-SHA256 embedding (RFC 4231 test case 2). -/
theorem hmacSha256_known_answer :
    Crypto.hexLower (Crypto.hmacSha256 (Crypto.strBytes "Jefe")
        (Crypto.strBytes "what do ya want for nothing?"))
      = "5bdcc146bf60754e6a042426089575c75a003f089d2739839dec58b964ec3843" := by
  decide

namespace VercelOIDC

/-- C2: over the `Stage` enumeration, `mapStageToVercelEnvironment` always
returns a non-empty list, maps Alpha to `["development", "preview"]`,
Production to exactly `["production"]`, and every other stage to the
single-element list of its own lowercased name. -/
theorem mapStage_total_fixed_table :
    (∀ s : Stage, mapStageToVercelEnvironment s.toStr ≠ [])
    ∧ mapStageToVercelEnvironment Stage.Alpha.toStr = ["development", "preview"]
    ∧ mapStageToVercelEnvironment Stage.Production.toStr = ["production"]
    ∧ ∀ s : Stage, s ≠ Stage.Alpha → s ≠ Stage.Production →
        mapStageToVercelEnvironment s.toStr = [toLowerStr s.toStr] := by
  refine ⟨?_, by decide, by decide, ?_⟩
  · intro s
    cases s <;> decide
  · intro s h1 h2
    cases s
    case Alpha => exact absurd rfl h1
    case Production => exact absurd rfl h2
    all_goals decide

theorem mapStage_total_fixed_table_witness :
    mapStageToVercelEnvironment Stage.Beta.toStr = [toLowerStr Stage.Beta.toStr] :=
  mapStage_total_fixed_table.2.2.2 Stage.Beta (by decide) (by decide)

end VercelOIDC

end UmbroCDK

namespace UmbroCDK

namespace VercelOIDC

/-- C5: the subject claims are one `createSubjectClaim` per environment name,
in input order, each of the exact form
`owner:<org>:project:<project>:environment:<env>`; for stage Alpha with org
`acme` and project `widget` the result is exactly the two-element development /
preview list. -/
theorem subject_claims_per_environment :
    (∀ t p e : String, createSubjectClaim t p e
        = "owner:" ++ t ++ ":project:" ++ p ++ ":environment:" ++ e)
    ∧ (∀ (t p stage : String) (mode : IssuerMode),
        (buildStack t p stage mode).subjectClaims
          = (mapStageToVercelEnvironment stage).map (createSubjectClaim t p))
    ∧ (∀ (t p : String) (envs : List String),
        (envs.map (createSubjectClaim t p)).length = envs.length
        ∧ ∀ i : Nat, i < envs.length →
            (envs.map (createSubjectClaim t p)).getD i ""
              = createSubjectClaim t p (envs.getD i ""))
    ∧ (buildStack "acme" "widget" "Alpha" IssuerMode.team).subjectClaims
        = ["owner:acme:project:widget:environment:development",
           "owner:acme:project:widget:environment:preview"] := by
  refine ⟨?_, fun _ _ _ _ => rfl, ?_, by decide⟩
  · intro t p e
    apply String.ext
    simp [createSubjectClaim, String.intercalate, String.intercalate.go, String.data_append]
  · intro t p envs
    refine ⟨List.length_map envs _, ?_⟩
    intro i hi
    rw [List.getD_eq_getElem?_getD, List.getD_eq_getElem?_getD, List.getElem?_map,
      List.getElem?_eq_getElem hi]
    rfl

theorem subject_claims_per_environment_witness :
    (["development", "preview"].map (createSubjectClaim "acme" "widget")).getD 1 ""
      = createSubjectClaim "acme" "widget" (["development", "preview"].getD 1 "") :=
  (subject_claims_per_environment.2.2.1 "acme" "widget" ["development", "preview"]).2 1
    (by decide)

/-- C4: the subject condition value is collapsed by cardinality — a
one-element claim list is stored as the scalar claim, a longer list is stored
as the list itself; for the Production stage (one environment) the stored
subject value is the scalar claim, not a list. -/
theorem trust_condition_collapse_by_cardinality :
    (∀ c : String, collapseSubjectValue [c] = ConditionValue.scalar c)
    ∧ (∀ cs : List String, 1 < cs.length → collapseSubjectValue cs = ConditionValue.values cs)
    ∧ (∀ (team proj : String) (mode : IssuerMode),
        collapseSubjectValue ((buildStack team proj "Production" mode).subjectClaims)
          = ConditionValue.scalar (createSubjectClaim team proj "production")
        ∧ (buildStack team proj "Production" mode).conditions.map Prod.snd
            = [ConditionValue.scalar ("https://vercel.com/" ++ team),
               ConditionValue.scalar (createSubjectClaim team proj "production")]) := by
  refine ⟨fun c => by simp [collapseSubjectValue], ?_, ?_⟩
  · intro cs h
    rw [collapseSubjectValue, if_neg (by omega)]
  · intro team proj mode
    exact ⟨rfl, rfl⟩

theorem trust_condition_collapse_by_cardinality_witness :
    collapseSubjectValue ["a", "b"] = ConditionValue.values ["a", "b"] :=
  trust_condition_collapse_by_cardinality.2.1 ["a", "b"] (by decide)

/-- C6: for every stage, team slug and project name (and either issuer mode),
the constructed conditions pin both claims: a `StringEquals` entry for the
audience key with value `https://vercel.com/<teamSlug>` and a `StringEquals`
entry for the subject key — neither is omitted. -/
theorem conditions_pin_audience_and_subject (s : Stage) (team proj : String)
    (mode : IssuerMode) :
    ∃ subVal,
      (buildStack team proj s.toStr mode).conditions
        = [(stripHttps (buildStack team proj s.toStr mode).vercelOidcUrl ++ ":aud",
            ConditionValue.scalar ("https://vercel.com/" ++ team)),
           (stripHttps (buildStack team proj s.toStr mode).vercelOidcUrl ++ ":sub", subVal)] :=
  ⟨_, rfl⟩

theorem conditions_pin_audience_and_subject_witness :
    ∃ subVal,
      (buildStack "acme" "widget" Stage.Production.toStr IssuerMode.team).conditions
        = [(stripHttps
              (buildStack "acme" "widget" Stage.Production.toStr IssuerMode.team).vercelOidcUrl
              ++ ":aud",
            ConditionValue.scalar ("https://vercel.com/" ++ "acme")),
           (stripHttps
              (buildStack "acme" "widget" Stage.Production.toStr IssuerMode.team).vercelOidcUrl
              ++ ":sub", subVal)] :=
  conditions_pin_audience_and_subject Stage.Production "acme" "widget" IssuerMode.team

/-- C8 counterexample: two distinct stage labels that capitalize to the same
role label do not make the construction fail — the role is created under the
colliding name `VercelAppBeta` in both cases; no error path exists. -/
theorem role_label_collision_not_rejected :
    "beta" ≠ "Beta"
    ∧ capitalizeStage "beta" = capitalizeStage "Beta"
    ∧ (buildStack "acme" "widget" "beta" IssuerMode.team).roleName
        = (buildStack "acme" "widget" "Beta" IssuerMode.team).roleName
    ∧ (buildStack "acme" "widget" "beta" IssuerMode.team).roleName = "VercelAppBeta" := by
  refine ⟨by decide, by decide, by decide, by decide⟩

/-- C8 amended: the constructor never raises any collision error — it always
creates the role named `VercelApp` + capitalized stage — but over the seven
enumerated stages the capitalized role label is injective, so two distinct
enum stages never collide. -/
theorem role_label_injective_no_collision :
    (∀ s t : Stage, capitalizeStage s.toStr = capitalizeStage t.toStr → s = t)
    ∧ (∀ (team proj : String) (s : Stage) (mode : IssuerMode),
        (buildStack team proj s.toStr mode).roleName
          = "VercelApp" ++ capitalizeStage s.toStr) := by
  constructor
  · intro s t h
    cases s <;> cases t <;> first | rfl | exact absurd h (by decide)
  · intro team proj s mode
    rfl

theorem role_label_injective_no_collision_witness :
    Stage.Gamma = Stage.Gamma
    ∧ (buildStack "acme" "widget" Stage.Gamma.toStr IssuerMode.team).roleName
        = "VercelApp" ++ capitalizeStage Stage.Gamma.toStr :=
  ⟨role_label_injective_no_collision.1 Stage.Gamma Stage.Gamma rfl,
   role_label_injective_no_collision.2 "acme" "widget" Stage.Gamma IssuerMode.team⟩

end VercelOIDC

end UmbroCDK

namespace UmbroCDK

theorem optVar_key {v : EnvironmentVariable} {o : Option String} {k t ty : String}
    (h : v ∈ optVar o k t ty) : v.key = k := by
  cases o with
  | none => simp [optVar] at h
  | some s =>
    rw [optVar] at h
    split at h
    · exact absurd h (List.not_mem_nil v)
    · rw [List.mem_singleton] at h
      rw [h]

theorem mem_baseVars_key {outputs : UpdateVercelEnv.CloudFormationOutputs}
    {tstr : String} {v : EnvironmentVariable}
    (h : v ∈ UpdateVercelEnv.baseVars outputs tstr) :
    v.key = "AWS_ACCOUNT_ID" ∨ v.key = "AWS_REGION" ∨ v.key = "AWS_ROLE_ARN"
    ∨ v.key = "USERS_TABLE_NAME" ∨ v.key = "SERVICE_TOKENS_TABLE_NAME" := by
  rw [UpdateVercelEnv.baseVars] at h
  simp only [List.mem_append] at h
  rcases h with ((((h | h) | h) | h) | h)
  · exact Or.inl (optVar_key h)
  · exact Or.inr (Or.inl (optVar_key h))
  · exact Or.inr (Or.inr (Or.inl (optVar_key h)))
  · exact Or.inr (Or.inr (Or.inr (Or.inl (optVar_key h))))
  · exact Or.inr (Or.inr (Or.inr (Or.inr (optVar_key h))))

/-- C3: in `src/scripts/update-vercel-env.ts`, when the stage seed variable is
absent or empty no `NEXTAUTH_SECRET` / `AUTH_SECRET` entry is emitted at all
(no degraded or empty value), and every secret entry that is emitted carries a
value derived from a present, non-empty seed. -/
theorem missing_seed_skips_secret_emission
    (outputs : UpdateVercelEnv.CloudFormationOutputs) (env : Env) (targets : List String) :
    ((env (UpdateVercelEnv.seedEnvVarName (UpdateVercelEnv.determineStageFromTargets targets))
          = none
        ∨ env (UpdateVercelEnv.seedEnvVarName (UpdateVercelEnv.determineStageFromTargets targets))
          = some "") →
      ∀ v ∈ UpdateVercelEnv.createEnvironmentVariables outputs env targets,
        v.key ≠ "NEXTAUTH_SECRET" ∧ v.key ≠ "AUTH_SECRET")
    ∧ (∀ v ∈ UpdateVercelEnv.createEnvironmentVariables outputs env targets,
        v.key = "NEXTAUTH_SECRET" ∨ v.key = "AUTH_SECRET" →
        ∃ seed,
          env (UpdateVercelEnv.seedEnvVarName (UpdateVercelEnv.determineStageFromTargets targets))
            = some seed
          ∧ seed.isEmpty = false
          ∧ v.value
              = deriveNextAuthSecret seed (UpdateVercelEnv.determineStageFromTargets targets)) := by
  constructor
  · intro hseed v hv
    simp only [UpdateVercelEnv.createEnvironmentVariables, List.mem_append] at hv
    rcases hv with hv | hv
    · have hk := mem_baseVars_key hv
      constructor <;> (rcases hk with h | h | h | h | h <;> rw [h] <;> decide)
    · rcases hseed with h | h
      · simp [UpdateVercelEnv.nextAuthVars, h] at hv
      · simp [UpdateVercelEnv.nextAuthVars, h] at hv
        exact absurd hv.1 (by decide)
  · intro v hv hkey
    simp only [UpdateVercelEnv.createEnvironmentVariables, List.mem_append] at hv
    rcases hv with hv | hv
    · exfalso
      have hk := mem_baseVars_key hv
      rcases hk with h | h | h | h | h <;> rcases hkey with hk2 | hk2 <;> rw [h] at hk2 <;>
        exact absurd hk2 (by decide)
    · revert hv
      simp only [UpdateVercelEnv.nextAuthVars]
      cases henv : env (UpdateVercelEnv.seedEnvVarName
          (UpdateVercelEnv.determineStageFromTargets targets)) with
      | none => intro hv; exact absurd hv (List.not_mem_nil v)
      | some seed =>
        by_cases hs : seed.isEmpty
        · simp [hs]
        · simp only [hs, if_false, Bool.false_eq_true]
          intro hv
          simp only [List.mem_cons, List.not_mem_nil, or_false] at hv
          rcases hv with rfl | rfl
          · exact ⟨seed, rfl, by simpa using hs, rfl⟩
          · exact ⟨seed, rfl, by simpa using hs, rfl⟩

theorem missing_seed_skips_secret_emission_witness :
    ∀ v ∈ UpdateVercelEnv.createEnvironmentVariables
        { AccountId := some "123456789012" } (fun _ => none) ["preview"],
      v.key ≠ "NEXTAUTH_SECRET" ∧ v.key ≠ "AUTH_SECRET" :=
  (missing_seed_skips_secret_emission
    { AccountId := some "123456789012" } (fun _ => none) ["preview"]).1 (Or.inl rfl)

/-- C10: `determineStageFromTargets` returns `"Production"` exactly when the
target list contains the string `"production"`, and `"Alpha"` for every other
target list, so every non-production target list selects the Alpha seed
variable. -/
theorem stage_membership_iff (targets : List String) :
    (UpdateVercelEnv.determineStageFromTargets targets = "Production"
      ↔ "production" ∈ targets)
    ∧ ("production" ∉ targets → UpdateVercelEnv.determineStageFromTargets targets = "Alpha")
    ∧ ("production" ∉ targets →
        UpdateVercelEnv.seedEnvVarName (UpdateVercelEnv.determineStageFromTargets targets)
          = "NEXTAUTH_SEED_ALPHA") := by
  by_cases h : "production" ∈ targets <;>
    simp [UpdateVercelEnv.determineStageFromTargets, UpdateVercelEnv.seedEnvVarName, h]

theorem stage_membership_iff_witness :
    UpdateVercelEnv.determineStageFromTargets ["preview"] = "Alpha"
    ∧ UpdateVercelEnv.seedEnvVarName (UpdateVercelEnv.determineStageFromTargets ["preview"])
        = "NEXTAUTH_SEED_ALPHA" :=
  ⟨(stage_membership_iff ["preview"]).2.1 (by decide),
   (stage_membership_iff ["preview"]).2.2 (by decide)⟩

end UmbroCDK

namespace UmbroCDK

/-- C9: in the variant updater, seed selection is total — `getSeedForStage`
returns the stage seed variable when it is set to a non-empty value and
otherwise the hard-coded fallback constant (the Production constant for stage
`"Production"`, the Alpha constant for every other stage value) — and the
derived secret is always emitted under both aliases. -/
theorem seed_selection_total_and_always_emits
    (outputs : Variant.CloudFormationOutputs) (env : Env) (targets : List String) :
    (∀ stage s, env (Variant.seedEnvVarName stage) = some s → s.isEmpty = false →
        Variant.getSeedForStage env stage = s)
    ∧ (∀ stage, env (Variant.seedEnvVarName stage) = none
          ∨ env (Variant.seedEnvVarName stage) = some "" →
        Variant.getSeedForStage env stage
          = if stage = "Production" then Variant.prodFallbackSeed
            else Variant.alphaFallbackSeed)
    ∧ (⟨"NEXTAUTH_SECRET",
          deriveNextAuthSecret
            (Variant.getSeedForStage env (Variant.determineStageFromTargets targets))
            (Variant.determineStageFromTargets targets),
          String.intercalate "," targets, "encrypted"⟩
        ∈ Variant.createEnvironmentVariables outputs env targets)
    ∧ (⟨"AUTH_SECRET",
          deriveNextAuthSecret
            (Variant.getSeedForStage env (Variant.determineStageFromTargets targets))
            (Variant.determineStageFromTargets targets),
          String.intercalate "," targets, "encrypted"⟩
        ∈ Variant.createEnvironmentVariables outputs env targets) := by
  refine ⟨?_, ?_, ?_, ?_⟩
  · intro stage s h hs
    simp only [Variant.getSeedForStage]
    rw [h]
    simp [hs]
  · intro stage h
    have hfb :
        (match Variant.fallbackSeeds.lookup stage with
          | some fb => if fb.isEmpty then Variant.alphaFallbackSeed else fb
          | none => Variant.alphaFallbackSeed)
          = if stage = "Production" then Variant.prodFallbackSeed
            else Variant.alphaFallbackSeed := by
      by_cases hp : stage = "Production"
      · subst hp; decide
      · by_cases ha : stage = "Alpha"
        · subst ha; decide
        · have h1 : (stage == "Production") = false := beq_eq_false_iff_ne.mpr hp
          have h2 : (stage == "Alpha") = false := beq_eq_false_iff_ne.mpr ha
          simp [Variant.fallbackSeeds, List.lookup, h1, h2, hp]
    rcases h with h | h
    · simp only [Variant.getSeedForStage]
      rw [h]
      exact hfb
    · simp only [Variant.getSeedForStage]
      rw [h]
      simpa using hfb
  · simp only [Variant.createEnvironmentVariables]
    exact List.mem_append_right _ (List.mem_cons_self _ _)
  · simp only [Variant.createEnvironmentVariables]
    exact List.mem_append_right _ (by simp)

theorem seed_selection_total_and_always_emits_witness :
    Variant.getSeedForStage (fun _ => none) "Production"
      = (if "Production" = "Production" then Variant.prodFallbackSeed
         else Variant.alphaFallbackSeed)
    ∧ (⟨"NEXTAUTH_SECRET",
          deriveNextAuthSecret
            (Variant.getSeedForStage (fun _ => none)
              (Variant.determineStageFromTargets ["preview"]))
            (Variant.determineStageFromTargets ["preview"]),
          String.intercalate "," ["preview"], "encrypted"⟩
        ∈ Variant.createEnvironmentVariables {} (fun _ => none) ["preview"]) :=
  ⟨(seed_selection_total_and_always_emits {} (fun _ => none) ["preview"]).2.1
      "Production" (Or.inl rfl),
   (seed_selection_total_and_always_emits {} (fun _ => none) ["preview"]).2.2.1⟩

end UmbroCDK

namespace UmbroCDK

/-- Stage sensitivity at the repository's own fallback seed: the Alpha and
Production labels produce different derived secrets (concrete instance of the
spec's sensitivity property). -/
theorem derive_stage_sensitivity_example :
    deriveNextAuthSecret "umbro-alpha-seed-2024-deterministic-fallback" "Alpha"
      ≠ deriveNextAuthSecret "umbro-alpha-seed-2024-deterministic-fallback" "Production" := by
  decide

end UmbroCDK
